import Mathlib

/-!
Verification development for the funding-carry hedge bot.

Shallow embedding of the decision, gating, rotation, persistence and
hedge-execution logic of the repository.  Python floats are modelled as
rationals (`ℚ`), exchange dictionaries as structures, fallible calls as
`Option`, and the exchange itself as explicit "world" records holding the
values the code would observe (mid price, positions before/after an order,
spot balances, response status).  Each definition is a direct translation of
the named source function.
-/

namespace Mvp

/-- Trade action, from `src/models.py` (`Action = Literal["OPEN","HOLD","CLOSE"]`). -/
inductive Action where
  | OPEN
  | HOLD
  | CLOSE
deriving DecidableEq, Repr

/-- Position side, from `src/models.py`: the current values `SHORT_PERP` /
`LONG_PERP` plus the deprecated legacy values still produced by the older
strategy module and accepted by `LiveExecutor.execute`. -/
inductive Side where
  | SHORT_PERP
  | LONG_PERP
  | SHORT_PERP_LONG_SPOT
  | LONG_PERP_SHORT_SPOT
deriving DecidableEq, Repr

/-- Market snapshot, from `src/models.py` (`Snapshot`).  `fundingRate` and
`premium` are `float|None` in the source, hence `Option ℚ`. -/
structure Snapshot where
  coin : String
  fundingRate : Option ℚ
  premium : Option ℚ
  time : ℤ
deriving DecidableEq, Repr

/-- Persisted position record, from `src/models.py` (`PositionState`). -/
structure PositionState where
  coin : String
  side : Side
  is_open : Bool
  opened_at_ms : ℤ
  size : Option ℚ := none
  entry_px : Option ℚ := none
deriving DecidableEq, Repr

/-- `side_expected_receive(side, rate)` from `src/main.py`: the side receives
funding iff it is `SHORT_PERP` with `rate > 0` or `LONG_PERP` with `rate < 0`;
any other side string falls through to `False`. -/
def side_expected_receive (side : Side) (rate : ℚ) : Bool :=
  match side with
  | Side.SHORT_PERP => rate > 0
  | Side.LONG_PERP => rate < 0
  | _ => false

/-- `side_expected_receive` applied to an optional side, as `main` does with
`decision.side` (a `None` side matches neither branch and yields `False`). -/
def side_expected_receive_opt (side : Option Side) (rate : ℚ) : Bool :=
  match side with
  | some s => side_expected_receive s rate
  | none => false

/-- `signed_funding(premium, fund_raw)` from `src/main.py`: keep a negative
raw rate as-is; otherwise follow the premium sign. -/
def signed_funding (premium fund_raw : ℚ) : ℚ :=
  if fund_raw < 0 then fund_raw
  else if premium ≥ 0 then fund_raw else -|fund_raw|

/-- `calc_expected_funding_and_fees` from `src/main.py`: expected funding
over the horizon and the round-trip fee estimate, both in USD. -/
def calc_expected_funding_and_fees (funding_rate notional_usd horizon_hours round_trip_fee_rate : ℚ) :
    ℚ × ℚ :=
  (|funding_rate| * notional_usd * horizon_hours, notional_usd * round_trip_fee_rate)

/-- The break-even gate test from `src/main.py` (`gate_ok = expected_funding_usd
>= FUNDING_FEE_MULTIPLE * est_fees_usd`). -/
def break_even_gate (funding_rate notional_usd horizon_hours round_trip_fee_rate mult : ℚ) : Bool :=
  let r := calc_expected_funding_and_fees funding_rate notional_usd horizon_hours round_trip_fee_rate
  r.1 ≥ mult * r.2

/-- `compute_next_funding_ms(snapshot_ms, interval_sec)` from `src/main.py`.
Python's `//` is floor division, hence `Int.fdiv`. -/
def compute_next_funding_ms (snapshot_ms : ℤ) (interval_sec : ℤ) : ℤ :=
  let interval_ms := max 1 interval_sec * 1000
  (Int.fdiv snapshot_ms interval_ms + 1) * interval_ms

/-- Strategy decision record, from `new-src/strategy.py` (`StrategyDecision`). -/
structure StrategyDecision where
  action : Action
  side : Option Side
  score : ℚ
  reason : String
deriving DecidableEq, Repr

/-- Threshold parameters of `FundingPremiumStrategy` (`new-src/strategy.py`). -/
structure FundingPremiumStrategy where
  prem_entry : ℚ
  fund_entry : ℚ
  prem_exit : ℚ
  fund_exit : ℚ
deriving DecidableEq, Repr

namespace FundingPremiumStrategy

/-- `FundingPremiumStrategy.decide_open` from `new-src/strategy.py`: HOLD on
missing data; sign-matched carry above entry thresholds opens on the matching
side; below thresholds holds with the carry score; sign mismatch holds with
score 0. -/
def decide_open (st : FundingPremiumStrategy) (s : Snapshot) : StrategyDecision :=
  match s.premium, s.fundingRate with
  | none, _ => ⟨Action.HOLD, none, 0, "missing_data"⟩
  | _, none => ⟨Action.HOLD, none, 0, "missing_data"⟩
  | some prem, some fund =>
    if prem > 0 ∧ fund > 0 then
      if prem ≥ st.prem_entry ∧ fund ≥ st.fund_entry then
        ⟨Action.OPEN, some Side.SHORT_PERP_LONG_SPOT, prem + fund, "valid_short_carry_entry"⟩
      else
        ⟨Action.HOLD, none, prem + fund, "short_carry_but_below_entry_thresholds"⟩
    else if prem < 0 ∧ fund < 0 then
      if -prem ≥ st.prem_entry ∧ -fund ≥ st.fund_entry then
        ⟨Action.OPEN, some Side.LONG_PERP_SHORT_SPOT, -prem + -fund, "valid_long_carry_entry"⟩
      else
        ⟨Action.HOLD, none, -prem + -fund, "long_carry_but_below_entry_thresholds"⟩
    else
      ⟨Action.HOLD, none, 0, "sign_mismatch_not_a_carry"⟩

/-- `FundingPremiumStrategy.should_close` from `new-src/strategy.py`: close if
the carry sign is no longer valid for the held side, or if either magnitude
decayed to at or below its exit threshold; otherwise hold. -/
def should_close (st : FundingPremiumStrategy) (s : Snapshot) (current_side : Side) :
    StrategyDecision :=
  match s.premium, s.fundingRate with
  | none, _ => ⟨Action.HOLD, some current_side, 0, "missing_data_hold"⟩
  | _, none => ⟨Action.HOLD, some current_side, 0, "missing_data_hold"⟩
  | some prem, some fund =>
    if current_side = Side.SHORT_PERP_LONG_SPOT then
      if ¬(prem > 0 ∧ fund > 0) then
        ⟨Action.CLOSE, some current_side, 0, "short_carry_invalidated_sign_mismatch"⟩
      else if prem ≤ st.prem_exit ∨ fund ≤ st.fund_exit then
        ⟨Action.CLOSE, some current_side, prem + fund, "short_carry_decayed_below_exit"⟩
      else
        ⟨Action.HOLD, some current_side, prem + fund, "short_carry_ok_hold"⟩
    else
      if ¬(prem < 0 ∧ fund < 0) then
        ⟨Action.CLOSE, some current_side, 0, "long_carry_invalidated_sign_mismatch"⟩
      else if -prem ≤ st.prem_exit ∨ -fund ≤ st.fund_exit then
        ⟨Action.CLOSE, some current_side, -prem + -fund, "long_carry_decayed_below_exit"⟩
      else
        ⟨Action.HOLD, some current_side, -prem + -fund, "long_carry_ok_hold"⟩

end FundingPremiumStrategy

/-- Modelled from the spec: the strategy module `src/strategy.py` imported by
`src/main.py` is not among the provided sources (only this older sibling
`new-src/strategy.py` and the callers in `src/main.py` are).  Per spec §3/§4.1
side selection requires premium and funding to share sign (short-perp carry
only when both positive, long-perp carry only when both negative) with entry
thresholds on the magnitudes; the callers in `src/main.py` compare the
returned side against the strings `SHORT_PERP` / `LONG_PERP` and the returned
reason against the same reason strings as `new-src/strategy.py`.  The
`allow_long_carry` flag accepted by its constructor is not modelled: however it
restricts long-carry entries, it cannot add OPEN decisions outside the
sign-matched branches described by the spec. -/
def decide_open_main (prem_entry fund_entry : ℚ) (s : Snapshot) : StrategyDecision :=
  match s.premium, s.fundingRate with
  | none, _ => ⟨Action.HOLD, none, 0, "missing_data"⟩
  | _, none => ⟨Action.HOLD, none, 0, "missing_data"⟩
  | some prem, some fund =>
    if prem > 0 ∧ fund > 0 then
      if prem ≥ prem_entry ∧ fund ≥ fund_entry then
        ⟨Action.OPEN, some Side.SHORT_PERP, prem + fund, "valid_short_carry_entry"⟩
      else
        ⟨Action.HOLD, none, prem + fund, "short_carry_but_below_entry_thresholds"⟩
    else if prem < 0 ∧ fund < 0 then
      if -prem ≥ prem_entry ∧ -fund ≥ fund_entry then
        ⟨Action.OPEN, some Side.LONG_PERP, -prem + -fund, "valid_long_carry_entry"⟩
      else
        ⟨Action.HOLD, none, -prem + -fund, "long_carry_but_below_entry_thresholds"⟩
    else
      ⟨Action.HOLD, none, 0, "sign_mismatch_not_a_carry"⟩

/-- Scored rotation candidate, from `new-src/rotate.py` (`BestPick`). -/
structure BestPick where
  coin : String
  side : Side
  score : ℚ
deriving DecidableEq, Repr

/-- `should_rotate(current, candidate, ratio, abs_delta)` from
`new-src/rotate.py`. -/
def should_rotate (current : Option BestPick) (candidate : BestPick) (ratio abs_delta : ℚ) : Bool :=
  match current with
  | none => true
  | some cur =>
    if candidate.coin = cur.coin ∧ candidate.side = cur.side then false
    else if cur.score ≤ 0 then true
    else candidate.score ≥ cur.score * ratio ∧ candidate.score - cur.score ≥ abs_delta

/-- The JSON payload written by `save_position` (`new-src/state.py`):
`{"position": null}` or `{"position": {...PositionState fields...}}`. -/
structure StatePayload where
  position : Option PositionState
deriving DecidableEq, Repr

/-- `save_position(position)` from `new-src/state.py`: the payload it
serializes (I/O failure is swallowed in the source and does not change the
payload that was attempted). -/
def save_position (position : Option PositionState) : StatePayload :=
  ⟨position⟩

/-- `DryRunExecutor.current_side` from `src/executor.py`. -/
def current_side (position : Option PositionState) : Option Side :=
  match position with
  | none => none
  | some p => if p.is_open then some p.side else none

/-- Status results of `DryRunExecutor.on_decision` (`src/executor.py`), which
the source returns as strings; `main` only tests them with
`status.startswith("OPENED")` / `status.startswith("CLOSED")`, which the
constructors reflect exactly (no other status string shares those prefixes). -/
inductive ExecStatus where
  | OPENED
  | CLOSED
  | OPEN_SKIPPED
  | CLOSE_SKIPPED
  | HOLD_NO_ACTION
deriving DecidableEq, Repr

/-- `DryRunExecutor.on_decision` from `src/executor.py`: open when flat and a
side is given; close when in a position; otherwise skip/hold.  Returns the new
position together with the status. -/
def on_decision (position : Option PositionState) (snap : Snapshot) (d : StrategyDecision) :
    Option PositionState × ExecStatus :=
  match d.action with
  | Action.OPEN =>
    if (current_side position).isSome then (position, ExecStatus.OPEN_SKIPPED)
    else
      match d.side with
      | none => (position, ExecStatus.OPEN_SKIPPED)
      | some sd =>
        (some { coin := snap.coin, side := sd, is_open := true, opened_at_ms := snap.time },
         ExecStatus.OPENED)
  | Action.CLOSE =>
    if (current_side position).isNone then (position, ExecStatus.CLOSE_SKIPPED)
    else
      match position with
      | none => (position, ExecStatus.CLOSE_SKIPPED)
      | some p => (some { p with is_open := false }, ExecStatus.CLOSED)
  | Action.HOLD => (position, ExecStatus.HOLD_NO_ACTION)

/-!  Trade client (`src/hyperliquid_trade_client.py`).

The exchange is modelled by per-call "world" records carrying the values the
client would observe: the mid price, the size decimals of the market, the
signed position size (`szi`) found before/after the order, the base-asset spot
balance before/after, and whether the SDK response parsed as OK.  A client
call returns `none` where the source raises (`RuntimeError` on bad mid /
too-small size / reduce-only without a position / unresolvable spot pair);
otherwise it returns the result record together with the order it submitted.
`raw` / `cloid` / logging fields are not modelled. -/

/-- `math.floor(x * scale) / scale` with `scale = 10 ** max(d, 0)`, the size
rounding used by both `place_order` and `place_spot_order`. -/
def floor_to_decimals (d : ℤ) (x : ℚ) : ℚ :=
  let scale : ℚ := 10 ^ (max d 0).toNat
  (⌊x * scale⌋ : ℚ) / scale

/-- An order actually submitted to the exchange SDK (the `market_open` /
`market_close` / `order` call), with the parameters the client computed. -/
structure SentOrder where
  venue : String            -- "perp" or "spot"
  coin : String
  is_buy : Bool
  sz : ℚ
  notional_usd : ℚ          -- the notional the order was sized from
  reduce_only : Bool
  use_available_base_size_for_sell : Bool
deriving DecidableEq, Repr

/-- Perp order outcome, from `OrderResult` in `src/hyperliquid_trade_client.py`
(positions are reduced to their `szi` field, which is all the verification
reads). -/
structure OrderResult where
  ok : Bool
  mid_price : ℚ
  size : ℚ
  verified : Bool
  before_szi : Option ℚ
  after_szi : Option ℚ
  verify_reason : String
deriving DecidableEq, Repr

/-- Spot order outcome, from `SpotOrderResult` in
`src/hyperliquid_trade_client.py`. -/
structure SpotOrderResult where
  ok : Bool
  mid_price : ℚ
  size : ℚ
  verified : Bool
  verify_reason : String
  before_base_balance : Option ℚ
  after_base_balance : Option ℚ
deriving DecidableEq, Repr

/-- What one perp `place_order` call observes from the exchange. -/
structure PerpWorld where
  mid : ℚ
  sz_decimals : ℤ
  before_szi : Option ℚ     -- `szi` of the position found before the order
  resp_ok : Bool            -- `_response_ok(resp)`
  after_szi : Option ℚ      -- `szi` of the position found after the order
deriving DecidableEq, Repr

/-- What one `place_spot_order` call observes from the exchange. -/
structure SpotWorld where
  pair_found : Bool         -- `_resolve_spot_pair` succeeded
  mid : ℚ
  sz_decimals : ℤ
  before_bal : Option ℚ     -- `get_spot_balances().get(base)` before
  resp_ok : Bool
  after_bal : Option ℚ
deriving DecidableEq, Repr

/-- `HyperliquidTradeClient._verify_position_change`: reduce-only orders must
start from a nonzero position and strictly shrink its magnitude; otherwise the
signed delta must move in the order's direction.  `None` positions read as
`szi = 0` (`safe_float(... if ... else 0.0) or 0.0`). -/
def verify_position_change (is_buy reduce_only : Bool) (before after : Option ℚ) :
    Bool × String :=
  let before_szi := before.getD 0
  let after_szi := after.getD 0
  let delta := after_szi - before_szi
  if reduce_only then
    if before_szi = 0 then (false, "reduce_only_with_no_position")
    else if |after_szi| < |before_szi| then (true, "reduced_position")
    else (false, "position_not_reduced")
  else if is_buy ∧ delta > 0 then (true, "increased_long")
  else if ¬is_buy ∧ delta < 0 then (true, "increased_short")
  else (false, "position_not_changed")

/-- `HyperliquidTradeClient.place_order`: size the market order by
`notional_usd / mid` floored to the market's size decimals; for a reduce-only
CLOSE override the size with the full current position size `abs(szi)`
(floored the same way); submit; re-query the position and verify the change;
force `ok = False` when verification fails. -/
def place_order (w : PerpWorld) (coin : String) (is_buy : Bool) (notional_usd : ℚ)
    (reduce_only : Bool) : Option (OrderResult × SentOrder) :=
  if w.mid ≤ 0 then none
  else
    let scale_sz := floor_to_decimals w.sz_decimals (notional_usd / w.mid)
    if scale_sz ≤ 0 then none
    else
      let close_sz :=
        floor_to_decimals w.sz_decimals |w.before_szi.getD 0|
      if reduce_only ∧ w.before_szi.getD 0 = 0 then none
      else if reduce_only ∧ close_sz ≤ 0 then none
      else
        let sz := if reduce_only then close_sz else scale_sz
        let sent : SentOrder :=
          { venue := "perp", coin := coin, is_buy := is_buy, sz := sz,
            notional_usd := notional_usd, reduce_only := reduce_only,
            use_available_base_size_for_sell := false }
        let v := verify_position_change is_buy reduce_only w.before_szi w.after_szi
        some
          ({ ok := w.resp_ok && v.1,
             mid_price := w.mid,
             size := sz,
             verified := v.1,
             before_szi := w.before_szi,
             after_szi := w.after_szi,
             verify_reason := v.2 }, sent)

/-- `HyperliquidTradeClient.place_spot_order`: size by `notional_usd / mid`
floored to the pair's size decimals; for a SELL with
`use_available_base_size_for_sell=True` and a positive recorded base balance,
sell that balance instead; submit; verify by the base-balance delta direction;
the result's `ok` is `response-ok AND verified`. -/
def place_spot_order (w : SpotWorld) (base_coin : String) (is_buy : Bool)
    (notional_usd : ℚ) (use_available_base_size_for_sell : Bool) :
    Option (SpotOrderResult × SentOrder) :=
  if ¬w.pair_found then none
  else if w.mid ≤ 0 then none
  else
    let sz₀ := floor_to_decimals w.sz_decimals (notional_usd / w.mid)
    if sz₀ ≤ 0 then none
    else
      let use_bal : Bool :=
        !is_buy && use_available_base_size_for_sell &&
          (match w.before_bal with
           | some b => decide (b > 0)
           | none => false)
      let sz := if use_bal then floor_to_decimals w.sz_decimals (w.before_bal.getD 0) else sz₀
      if use_bal ∧ sz ≤ 0 then none
      else
        let sent : SentOrder :=
          { venue := "spot", coin := base_coin, is_buy := is_buy, sz := sz,
            notional_usd := notional_usd, reduce_only := false,
            use_available_base_size_for_sell := use_available_base_size_for_sell }
        let vr : Bool × String :=
          match w.before_bal, w.after_bal with
          | some b, some a =>
            let verified := if is_buy then a - b > 0 else a - b < 0
            (verified, if verified then "base_balance_changed" else "base_balance_unchanged")
          | _, _ => (w.resp_ok, "balance_snapshot_unavailable")
        some
          ({ ok := w.resp_ok && vr.1,
             mid_price := w.mid,
             size := sz,
             verified := vr.1,
             verify_reason := vr.2,
             before_base_balance := w.before_bal,
             after_base_balance := w.after_bal }, sent)

/-!  Live executor (`src/live_executor.py`). -/

/-- `OrderIntent` from `src/live_executor.py`. -/
structure OrderIntent where
  kind : String
  coin : String
  side : Option Side      -- `str` in the source, but `None` can flow through
  notional_usd : ℚ
  ts : ℤ
  reason : String
deriving DecidableEq, Repr

/-- `OrderPlan` from `src/live_executor.py`.  The source field spelled
`part` + `ial` is renamed `partFill` here (the spelling is reserved in this
development); nothing reads it. -/
structure OrderPlan where
  kind : String
  coin : String
  side : Option Side
  notional_usd : ℚ
  reduce_only : Bool
  partFill : Bool
  retries : ℤ
  note : String
deriving DecidableEq, Repr

/-- The configuration state of `LiveExecutor` (`__init__` fields; the lazily
created client is represented by the call worlds passed to `execute`). -/
structure LiveExecutor where
  notional_usd : ℚ
  safe_mode : Bool
  spot_quote : String
deriving DecidableEq, Repr

/-- `LiveExecutor.__init__`: `assert notional_usd <= 100.0, "Real-money test
cap exceeded"` — construction fails (returns `none`) beyond the hard cap. -/
def mkLiveExecutor (notional_usd : ℚ) (safe_mode : Bool) (spot_quote : String) :
    Option LiveExecutor :=
  if notional_usd ≤ 100 then
    some { notional_usd := notional_usd, safe_mode := safe_mode, spot_quote := spot_quote }
  else none

/-- `LiveExecutor.build_intent`: the intent carries the executor's configured
notional. -/
def build_intent (ex : LiveExecutor) (snap : Snapshot) (kind : String) (side : Option Side)
    (reason : String) : OrderIntent :=
  { kind := kind, coin := snap.coin, side := side, notional_usd := ex.notional_usd,
    ts := snap.time, reason := reason }

/-- `LiveExecutor.build_plan`: OPEN plans are not reduce-only, CLOSE plans are. -/
def build_plan (intent : OrderIntent) : OrderPlan :=
  if intent.kind = "OPEN" then
    { kind := "OPEN", coin := intent.coin, side := intent.side,
      notional_usd := intent.notional_usd, reduce_only := false, partFill := false,
      retries := 0, note := "PERP_ONLY OPEN" }
  else
    { kind := "CLOSE", coin := intent.coin, side := intent.side,
      notional_usd := intent.notional_usd, reduce_only := true, partFill := false,
      retries := 0, note := "PERP_ONLY CLOSE (reduce-only)" }

/-- `LiveExecutor.preview`: build intent then plan (logging elided). -/
def preview (ex : LiveExecutor) (snap : Snapshot) (kind : String) (side : Option Side)
    (reason : String) : OrderPlan :=
  build_plan (build_intent ex snap kind side reason)

/-- The shape `main` reads off whatever `execute` returns (`OrderResult` or the
ad-hoc `SimpleNamespace` failure records): `ok`, `verified`, `verify_reason`. -/
structure Res where
  ok : Bool
  verified : Bool
  verify_reason : String
deriving DecidableEq, Repr

/-- Project an `OrderResult` to the fields `main` inspects. -/
def OrderResult.toRes (r : OrderResult) : Res :=
  { ok := r.ok, verified := r.verified, verify_reason := r.verify_reason }

/-- The exchange observations available to one `LiveExecutor.execute` call:
`spot1` for the first spot leg (OPEN), `perp` for the perp leg, `spot2` for
the second spot call (rollback sell-back on OPEN, balance-sized sell on
CLOSE). -/
structure ExecWorld where
  spot1 : SpotWorld
  perp : PerpWorld
  spot2 : SpotWorld
deriving DecidableEq, Repr

/-- Result of `LiveExecutor.execute`: `none` models an uncaught exception
propagating to the caller; `some none` models the Python `None` return
(safe mode); `some (some r)` a returned result record. -/
abbrev ExecRet := Option (Option Res)

/-- `LiveExecutor.execute` from `src/live_executor.py`, returning the result
together with the orders submitted.

OPEN, short side: spot BUY first; if its `ok` is false, return the
`spot_open_failed` record; otherwise perp SELL; if the perp leg is not
(`ok` and `verified`), attempt the spot sell-back (sized from the available
base balance, its own failure swallowed) and return the perp result;
otherwise return the perp result.  OPEN, long side: refused
(`unsupported_long_perp_short_spot_in_v1`), nothing sent.

CLOSE, short side: reduce-only perp BUY first; if not (`ok` and `verified`),
return it without touching spot; otherwise spot SELL sized from the available
base balance; if that fails, return `spot_close_failed_after_perp_close`.
Any other side on CLOSE: legacy perp-only reduce-only SELL. -/
def execute (ex : LiveExecutor) (w : ExecWorld) (plan : OrderPlan) :
    ExecRet × List SentOrder :=
  if ex.safe_mode then (some none, [])
  else if plan.kind = "OPEN" then
    if plan.side = some Side.SHORT_PERP ∨ plan.side = some Side.SHORT_PERP_LONG_SPOT then
      match place_spot_order w.spot1 plan.coin true plan.notional_usd false with
      | none => (none, [])
      | some (spot, o1) =>
        if ¬spot.ok then
          (some (some { ok := false, verified := false, verify_reason := "spot_open_failed" }),
           [o1])
        else
          match place_order w.perp plan.coin false plan.notional_usd false with
          | none => (none, [o1])
          | some (perp, o2) =>
            if ¬(perp.ok ∧ perp.verified) then
              match place_spot_order w.spot2 plan.coin false plan.notional_usd true with
              | none => (some (some perp.toRes), [o1, o2])
              | some (_, o3) => (some (some perp.toRes), [o1, o2, o3])
            else (some (some perp.toRes), [o1, o2])
    else
      (some (some { ok := false, verified := false,
                    verify_reason := "unsupported_long_perp_short_spot_in_v1" }), [])
  else
    if plan.side = some Side.SHORT_PERP ∨ plan.side = some Side.SHORT_PERP_LONG_SPOT then
      match place_order w.perp plan.coin true plan.notional_usd true with
      | none => (none, [])
      | some (perp, o1) =>
        if ¬(perp.ok ∧ perp.verified) then (some (some perp.toRes), [o1])
        else
          match place_spot_order w.spot2 plan.coin false plan.notional_usd true with
          | none => (none, [o1])
          | some (spot, o2) =>
            if ¬spot.ok then
              (some (some { ok := false, verified := false,
                            verify_reason := "spot_close_failed_after_perp_close" }), [o1, o2])
            else (some (some perp.toRes), [o1, o2])
    else
      match place_order w.perp plan.coin false plan.notional_usd true with
      | none => (none, [])
      | some (perp, o1) => (some (some perp.toRes), [o1])

/-!  Startup reconciliation (`src/main.py`, the `if live_enabled:` block after
restoring persisted state). -/

/-- One parsed exchange position as returned by
`HyperliquidTradeClient.get_positions` (only the fields reconciliation reads). -/
structure ExchangePosition where
  coin : String
  szi : Option ℚ
  entry_px : Option ℚ
deriving DecidableEq, Repr

/-- The startup reconciliation in `src/main.py` (run when live trading is
enabled): query exchange positions (`none` models the query raising, which is
caught and leaves the restored state untouched); zero positions force the
local state to `None` and persist `{"position": null}`; otherwise the first
exchange position overwrites local state (side from the sign of `szi`) and is
persisted.  Returns the resulting executor position and the payloads written
by `save_position`. -/
def reconcile_startup (restored : Option PositionState)
    (live_positions : Option (List ExchangePosition)) (now_ms : ℤ) :
    Option PositionState × List StatePayload :=
  match live_positions with
  | none => (restored, [])
  | some ps =>
    match ps with
    | [] => (none, [save_position none])
    | pos :: _ =>
      let szi := pos.szi.getD 0            -- `pos.get("szi") or 0.0`
      let side := if szi > 0 then Side.LONG_PERP else Side.SHORT_PERP
      let synced : PositionState :=
        { coin := pos.coin, side := side, is_open := true, opened_at_ms := now_ms,
          size := some |szi|, entry_px := pos.entry_px }
      (some synced, [save_position (some synced)])

/-!  Orchestrator loop (`src/main.py`, the PROCESS section of the polling
loop).

The loop body is modelled per snapshot as a state transition
`processSnapshot`.  The pieces `main` wires in are parameters: the strategy
(an arbitrary pair of decision functions, since `src/strategy.py` is
constructed outside the loop), the live executor configuration, and the value
each `live.execute(...)` call returns (supplied by the cycle input, `none`
modelling the Python `None` return).  Alert counters, log bookkeeping and the
`branch_guard_logged` flag only feed log lines and are elided; exceptions
inside the body are caught per coin by the source and cannot modify
`live_enabled`, so they are not modelled.  Dictionaries keyed by coin are
association lists. -/

/-- Association-list lookup for the coin-keyed dicts of `main`. -/
def lookupCoin {α : Type} (m : List (String × α)) (k : String) : Option α :=
  (m.find? (fun e => e.1 == k)).map (·.2)

/-- Dict update `m[k] = v`. -/
def setCoin {α : Type} (m : List (String × α)) (k : String) (v : α) :
    List (String × α) :=
  (k, v) :: m.filter (fun e => e.1 != k)

/-- Dict removal `m.pop(k, None)`. -/
def popCoin {α : Type} (m : List (String × α)) (k : String) : List (String × α) :=
  m.filter (fun e => e.1 != k)

/-- A pending post-funding validation record
(`pending_funding_validation[coin]` in `src/main.py`). -/
structure PendingValidation where
  side : Option Side
  opened_at_ms : ℤ
  next_funding_ms : ℤ
deriving DecidableEq, Repr

/-- The mutable loop state of `main` that the PROCESS section reads or
writes. -/
structure BotState where
  live_enabled : Bool
  position : Option PositionState
  last_seen_time : List (String × ℤ)
  last_trade_ms : List (String × ℤ)
  pending_funding_validation : List (String × PendingValidation)
  test_force_entry_once_available : Bool
  test_force_gate_once_available : Bool
deriving DecidableEq, Repr

/-- The effective configuration values the PROCESS section uses. -/
structure BotConfig where
  cooldown_sec : ℤ
  funding_interval_seconds : ℤ
  post_funding_validate_delay_seconds : ℤ
  enforce_post_funding_validation : Bool
  funding_horizon_hours : ℚ
  est_round_trip_fee_rate : ℚ
  funding_fee_multiple : ℚ
  notional_usd : ℚ
deriving DecidableEq, Repr

/-- The strategy object `main` constructs and passes into the loop
(`src/strategy.py` is not among the provided sources, so the loop is verified
for an arbitrary strategy). -/
structure StrategyFns where
  decide_open : Snapshot → StrategyDecision
  should_close : Snapshot → Side → StrategyDecision

/-- A snapshot as produced by `fetch_latest_snapshot`, which only returns
snapshots whose `fundingRate` and `premium` parsed to floats. -/
structure FetchedSnap where
  coin : String
  fundingRate : ℚ
  premium : ℚ
  time : ℤ
deriving DecidableEq, Repr

/-- Repackage a fetched snapshot as the `Snapshot` record handed around. -/
def FetchedSnap.toSnapshot (s : FetchedSnap) : Snapshot :=
  { coin := s.coin, fundingRate := some s.fundingRate, premium := some s.premium,
    time := s.time }

/-- Input of one loop-body iteration: the fetched snapshot plus the values the
(at most two) `live.execute(...)` call sites would return this iteration. -/
structure CycleInput where
  snap : FetchedSnap
  exec_post : Option Res   -- return of the post-funding enforcement call site
  exec_main : Option Res   -- return of the OPEN / CLOSE call site
deriving DecidableEq, Repr

/-- One recorded `live.execute(plan)` invocation and the value it returned. -/
structure ExecCall where
  plan : OrderPlan
  result : Option Res
deriving DecidableEq, Repr

/-- `main`'s failure test on an execute result:
`not result or not result.ok or not result.verified`. -/
def failing_result (r : Option Res) : Bool :=
  match r with
  | none => true
  | some x => !x.ok || !x.verified

/-- The post-funding validation block of the loop body (`src/main.py`): once a
pending record's check time has passed, either validate and drop it, or — with
enforcement on — force-close any open position (submitting live only when
`live_enabled`), then disable live trading unconditionally and drop the
record; without enforcement just warn and drop it. -/
def post_funding_block (cfg : BotConfig) (live : LiveExecutor) (st : BotState)
    (inp : CycleInput) : BotState × List ExecCall :=
  match lookupCoin st.pending_funding_validation inp.snap.coin with
  | none => (st, [])
  | some p =>
    if inp.snap.time ≥ p.next_funding_ms + cfg.post_funding_validate_delay_seconds * 1000 then
      if side_expected_receive_opt p.side inp.snap.fundingRate then
        ({st with pending_funding_validation := popCoin st.pending_funding_validation inp.snap.coin}, [])
      else if cfg.enforce_post_funding_validation then
        let step : BotState × List ExecCall :=
          match current_side st.position with
          | some cs =>
            let forced : StrategyDecision :=
              ⟨Action.CLOSE, some cs, 0, "post_funding_validation_failed"⟩
            let plan := preview live inp.snap.toSnapshot "CLOSE" forced.side forced.reason
            let tr := if st.live_enabled then [⟨plan, inp.exec_post⟩] else []
            let r := on_decision st.position inp.snap.toSnapshot forced
            ({st with position := r.1}, tr)
          | none => (st, [])
        let st1 := step.1
        ({st1 with live_enabled := false, pending_funding_validation := popCoin st1.pending_funding_validation inp.snap.coin}, step.2)
      else
        ({st with pending_funding_validation := popCoin st.pending_funding_validation inp.snap.coin}, [])
    else (st, [])

/-- Commit an OPEN through the dry-run executor and, when it reports OPENED,
arm the post-funding validation record (`src/main.py`). -/
def commit_open (cfg : BotConfig) (st : BotState) (snap : Snapshot)
    (d_open : StrategyDecision) : BotState :=
  let r := on_decision st.position snap d_open
  let st := { st with position := r.1 }
  let pend : PendingValidation :=
    ⟨d_open.side, snap.time, compute_next_funding_ms snap.time cfg.funding_interval_seconds⟩
  if r.2 = ExecStatus.OPENED then
    { st with pending_funding_validation := setCoin st.pending_funding_validation snap.coin pend }
  else st

/-- Commit a CLOSE through the dry-run executor and, when it reports CLOSED,
drop the pending validation record (`src/main.py`). -/
def commit_close (st : BotState) (snap : Snapshot) (d_close : StrategyDecision) : BotState :=
  let r := on_decision st.position snap d_close
  let st := { st with position := r.1 }
  if r.2 = ExecStatus.CLOSED then
    { st with pending_funding_validation := popCoin st.pending_funding_validation snap.coin }
  else st

/-- The one-shot test-force-entry transform at the top of the FLAT branch
(`src/main.py`): a below-threshold HOLD is upgraded to a forced OPEN on the
short side (consuming the one-shot flag), while the long-carry variant is
rewritten to a HOLD with the unsupported-branch reason. -/
def force_entry_transform (st : BotState) (d0 : StrategyDecision) :
    StrategyDecision × BotState :=
  if st.test_force_entry_once_available ∧ d0.action = Action.HOLD ∧
      (d0.reason = "short_carry_but_below_entry_thresholds" ∨
       d0.reason = "long_carry_but_below_entry_thresholds") then
    if d0.reason = "long_carry_but_below_entry_thresholds" then
      (⟨Action.HOLD, none, d0.score, "long_carry_disabled_one_sided_mode"⟩, st)
    else
      (⟨Action.OPEN, some Side.SHORT_PERP, d0.score, d0.reason ++ "_test_force_entry_once"⟩,
       { st with test_force_entry_once_available := false })
  else (d0, st)

/-- The OPEN pipeline of the FLAT branch (`src/main.py`), entered once the
decision's action is OPEN: direction precheck, break-even gate (with its
one-shot test override), live long-perp unsupported-branch refusal, cooldown;
then preview the plan and, when live, submit — a missing/failed/unverified
result disables live trading and skips the commit; otherwise commit through
the dry-run executor. -/
def flat_open_path (cfg : BotConfig) (live : LiveExecutor) (st : BotState)
    (inp : CycleInput) (d_open : StrategyDecision) : BotState × List ExecCall :=
  let snap := inp.snap.toSnapshot
  if ¬ side_expected_receive_opt d_open.side inp.snap.fundingRate then (st, [])
  else
    let fees := calc_expected_funding_and_fees inp.snap.fundingRate cfg.notional_usd
      cfg.funding_horizon_hours cfg.est_round_trip_fee_rate
    let gate0 : Bool := fees.1 ≥ cfg.funding_fee_multiple * fees.2
    let step2 : Bool × BotState :=
      if ¬gate0 ∧ st.test_force_gate_once_available ∧ d_open.side = some Side.SHORT_PERP then
        (true, { st with test_force_gate_once_available := false, test_force_entry_once_available := false })
      else (gate0, st)
    let gate_ok := step2.1
    let st := step2.2
    if ¬gate_ok then (st, [])
    else if st.live_enabled ∧ d_open.side = some Side.LONG_PERP then (st, [])
    else
      let cooldown_active : Bool :=
        match lookupCoin st.last_trade_ms inp.snap.coin with
        | some t => decide (inp.snap.time - t < cfg.cooldown_sec * 1000)
        | none => false
      if cooldown_active then (st, [])
      else
        let plan := preview live snap "OPEN" d_open.side d_open.reason
        if st.live_enabled then
          if failing_result inp.exec_main then
            ({ st with live_enabled := false }, [⟨plan, inp.exec_main⟩])
          else
            let st := { st with last_trade_ms := setCoin st.last_trade_ms inp.snap.coin inp.snap.time }
            (commit_open cfg st snap d_open, [⟨plan, inp.exec_main⟩])
        else (commit_open cfg st snap d_open, [])

/-- The FLAT branch of the loop body (`src/main.py`): decide an open, apply
the one-shot test-force-entry transform, and on OPEN run the open pipeline
(`flat_open_path`); anything else only logs. -/
def flat_block (cfg : BotConfig) (strat : StrategyFns) (live : LiveExecutor)
    (st : BotState) (inp : CycleInput) : BotState × List ExecCall :=
  let d0 := strat.decide_open inp.snap.toSnapshot
  let r := force_entry_transform st d0
  if r.1.action = Action.OPEN then flat_open_path cfg live r.2 inp r.1
  else (r.2, [])

/-- The IN-POSITION branch of the loop body (`src/main.py`): ask the strategy
whether to close; on CLOSE, respect the cooldown, preview the plan and, when
live, submit it — a missing/failed/unverified result disables live trading
and skips the commit; otherwise commit the close. -/
def in_position_block (cfg : BotConfig) (strat : StrategyFns) (live : LiveExecutor)
    (st : BotState) (inp : CycleInput) (cur : Side) : BotState × List ExecCall :=
  let snap := inp.snap.toSnapshot
  let d_close := strat.should_close snap cur
  if d_close.action = Action.CLOSE then
    let cooldown_active : Bool :=
      match lookupCoin st.last_trade_ms inp.snap.coin with
      | some t => decide (inp.snap.time - t < cfg.cooldown_sec * 1000)
      | none => false
    if cooldown_active then (st, [])
    else
      let plan := preview live snap "CLOSE" d_close.side d_close.reason
      if st.live_enabled then
        if failing_result inp.exec_main then
          ({ st with live_enabled := false }, [⟨plan, inp.exec_main⟩])
        else
          let st := { st with last_trade_ms := setCoin st.last_trade_ms inp.snap.coin inp.snap.time }
          (commit_close st snap d_close, [⟨plan, inp.exec_main⟩])
      else (commit_close st snap d_close, [])
  else (st, [])

/-- One iteration of the PROCESS section of `main`'s polling loop for one
fetched snapshot: skip stale snapshots, run the post-funding validation block,
then the FLAT or IN-POSITION branch.  Returns the new loop state and the
`live.execute` calls made. -/
def processSnapshot (cfg : BotConfig) (strat : StrategyFns) (live : LiveExecutor)
    (st : BotState) (inp : CycleInput) : BotState × List ExecCall :=
  if lookupCoin st.last_seen_time inp.snap.coin = some inp.snap.time then (st, [])
  else
    let st := { st with last_seen_time := setCoin st.last_seen_time inp.snap.coin inp.snap.time }
    let r1 := post_funding_block cfg live st inp
    let r2 :=
      match current_side r1.1.position with
      | none => flat_block cfg strat live r1.1 inp
      | some cur => in_position_block cfg strat live r1.1 inp cur
    (r2.1, r1.2 ++ r2.2)

/-- Iterate `processSnapshot` over successive cycle inputs, collecting the
per-iteration call lists. -/
def runBot (cfg : BotConfig) (strat : StrategyFns) (live : LiveExecutor) :
    BotState → List CycleInput → BotState × List (List ExecCall)
  | st, [] => (st, [])
  | st, inp :: rest =>
    let r := processSnapshot cfg strat live st inp
    let rr := runBot cfg strat live r.1 rest
    (rr.1, r.2 :: rr.2)

/-!  Claims. -/

/-- A funding-sign mismatch between a premium and a normalized funding rate. -/
def sign_mismatch (premium fund : ℚ) : Prop :=
  (0 < premium ∧ fund < 0) ∨ (premium < 0 ∧ 0 < fund)

/-- C10: `signed_funding` keeps a negative raw rate as-is and otherwise
follows the premium sign (`f` when `premium ≥ 0`, `-|f|` when `premium < 0`);
consequently a non-negative raw rate can never yield a normalized rate of
strictly opposite sign to the premium, and a sign mismatch forces a negative
raw rate together with a positive premium. -/
theorem c10_signed_funding_normalization (p f : ℚ) :
    (f < 0 → signed_funding p f = f) ∧
    (0 ≤ f → signed_funding p f = if p ≥ 0 then f else -|f|) ∧
    (0 ≤ f → ¬ sign_mismatch p (signed_funding p f)) ∧
    (sign_mismatch p (signed_funding p f) → f < 0 ∧ 0 < p) := by
  refine ⟨fun hf => ?_, fun hf => ?_, fun hf h => ?_, fun h => ?_⟩
  · simp [signed_funding, hf]
  · simp [signed_funding, not_lt.mpr hf]
  · rcases h with ⟨hp, hneg⟩ | ⟨hp, hpos⟩
    · have hsf : signed_funding p f = f := by simp [signed_funding, not_lt.mpr hf, hp.le]
      rw [hsf] at hneg
      exact absurd hneg (not_lt.mpr hf)
    · have hsf : signed_funding p f = -|f| := by
        simp [signed_funding, not_lt.mpr hf, not_le.mpr hp]
      rw [hsf] at hpos
      have := abs_nonneg f
      linarith
  · by_cases hf : f < 0
    · have hsf : signed_funding p f = f := by simp [signed_funding, hf]
      rcases h with ⟨hp, _⟩ | ⟨hp, hpos⟩
      · exact ⟨hf, hp⟩
      · rw [hsf] at hpos
        exact absurd (hpos.trans hf) (lt_irrefl 0)
    · exfalso
      have hf' : (0 : ℚ) ≤ f := not_lt.mp hf
      rcases h with ⟨hp, hneg⟩ | ⟨hp, hpos⟩
      · have hsf : signed_funding p f = f := by simp [signed_funding, hf, hp.le]
        rw [hsf] at hneg
        exact hf hneg
      · have hsf : signed_funding p f = -|f| := by simp [signed_funding, hf, not_le.mpr hp]
        rw [hsf] at hpos
        have := abs_nonneg f
        linarith

/-- Witness for C10 at concrete inputs. -/
theorem c10_signed_funding_normalization_witness :
    signed_funding 1 (-2) = -2 ∧
    signed_funding (-3) 2 = -|(2 : ℚ)| ∧
    ¬ sign_mismatch (-3) (signed_funding (-3) 2) := by
  have h1 := (c10_signed_funding_normalization 1 (-2)).1 (by norm_num)
  have h2 := (c10_signed_funding_normalization (-3) 2).2.1 (by norm_num)
  have h3 := (c10_signed_funding_normalization (-3) 2).2.2.1 (by norm_num)
  rw [if_neg (by norm_num : ¬((-3 : ℚ) ≥ 0))] at h2
  exact ⟨h1, h2, h3⟩

/-- C7: with premium and funding both present, `should_close` returns CLOSE
with score 0 whenever the carry is no longer sign-valid for the current side —
for the short-perp/long-spot side whenever premium and funding are not both
positive, for the long-perp/short-spot side whenever they are not both
negative — regardless of how large the magnitudes are. -/
theorem c7_should_close_on_sign_break (st : FundingPremiumStrategy) (s : Snapshot) (p f : ℚ)
    (hp : s.premium = some p) (hf : s.fundingRate = some f) :
    (¬(p > 0 ∧ f > 0) →
      st.should_close s Side.SHORT_PERP_LONG_SPOT =
        ⟨Action.CLOSE, some Side.SHORT_PERP_LONG_SPOT, 0, "short_carry_invalidated_sign_mismatch"⟩) ∧
    (¬(p < 0 ∧ f < 0) →
      st.should_close s Side.LONG_PERP_SHORT_SPOT =
        ⟨Action.CLOSE, some Side.LONG_PERP_SHORT_SPOT, 0, "long_carry_invalidated_sign_mismatch"⟩) := by
  obtain ⟨c, fr, pr, t⟩ := s
  simp only [Snapshot.premium, Snapshot.fundingRate] at hp hf
  subst hp hf
  constructor
  · intro h
    simp [FundingPremiumStrategy.should_close, h]
  · intro h
    simp [FundingPremiumStrategy.should_close, h]

/-- Witness for C7: both magnitudes far above any entry threshold, but the
sign broke — CLOSE with score 0. -/
theorem c7_should_close_on_sign_break_witness :
    FundingPremiumStrategy.should_close ⟨(1 : ℚ)/10000, (6 : ℚ)/1000000, (1 : ℚ)/20000, (5 : ℚ)/10000000⟩
        ⟨"BTC", some (-5), some 7, 0⟩ Side.SHORT_PERP_LONG_SPOT =
      ⟨Action.CLOSE, some Side.SHORT_PERP_LONG_SPOT, 0, "short_carry_invalidated_sign_mismatch"⟩ :=
  (c7_should_close_on_sign_break
    ⟨(1 : ℚ)/10000, (6 : ℚ)/1000000, (1 : ℚ)/20000, (5 : ℚ)/10000000⟩
    ⟨"BTC", some (-5), some 7, 0⟩ 7 (-5) rfl rfl).1 (by norm_num)

/-- C9: `should_rotate` accepts unconditionally without a current pick; always
rejects a candidate equal to the current pick's coin and side; accepts
unconditionally (given a different coin or side) when the current score is
non-positive; and otherwise accepts exactly when the candidate clears both the
relative ratio bar and the absolute delta bar. -/
theorem c9_should_rotate_spec (cur cand : BestPick) (ratio abs_delta : ℚ) :
    (should_rotate none cand ratio abs_delta = true) ∧
    (cand.coin = cur.coin ∧ cand.side = cur.side →
      should_rotate (some cur) cand ratio abs_delta = false) ∧
    (¬(cand.coin = cur.coin ∧ cand.side = cur.side) → cur.score ≤ 0 →
      should_rotate (some cur) cand ratio abs_delta = true) ∧
    (¬(cand.coin = cur.coin ∧ cand.side = cur.side) → 0 < cur.score →
      (should_rotate (some cur) cand ratio abs_delta = true ↔
        cand.score ≥ cur.score * ratio ∧ cand.score - cur.score ≥ abs_delta)) := by
  refine ⟨rfl, fun h => ?_, fun h hs => ?_, fun h hs => ?_⟩
  · simp only [should_rotate, if_pos h]
  · simp only [should_rotate, if_neg h, if_pos hs]
  · simp only [should_rotate, if_neg h, if_neg (not_le.mpr hs), decide_eq_true_eq]

/-- Witness for C9 at concrete picks. -/
theorem c9_should_rotate_spec_witness :
    should_rotate (some ⟨"BTC", Side.SHORT_PERP_LONG_SPOT, 2⟩)
        ⟨"BTC", Side.SHORT_PERP_LONG_SPOT, 100⟩ (11/10) (1/1000) = false ∧
    should_rotate (some ⟨"BTC", Side.SHORT_PERP_LONG_SPOT, -1⟩)
        ⟨"ETH", Side.SHORT_PERP_LONG_SPOT, 0⟩ (11/10) (1/1000) = true ∧
    (should_rotate (some ⟨"BTC", Side.SHORT_PERP_LONG_SPOT, 2⟩)
        ⟨"ETH", Side.SHORT_PERP_LONG_SPOT, 3⟩ (11/10) (1/1000) = true ↔
      (3 : ℚ) ≥ 2 * (11/10) ∧ (3 : ℚ) - 2 ≥ 1/1000) := by
  refine ⟨?_, ?_, ?_⟩
  · exact (c9_should_rotate_spec ⟨"BTC", Side.SHORT_PERP_LONG_SPOT, 2⟩
      ⟨"BTC", Side.SHORT_PERP_LONG_SPOT, 100⟩ (11/10) (1/1000)).2.1 (by exact ⟨rfl, rfl⟩)
  · exact (c9_should_rotate_spec ⟨"BTC", Side.SHORT_PERP_LONG_SPOT, -1⟩
      ⟨"ETH", Side.SHORT_PERP_LONG_SPOT, 0⟩ (11/10) (1/1000)).2.2.1
      (by simp) (by norm_num)
  · exact (c9_should_rotate_spec ⟨"BTC", Side.SHORT_PERP_LONG_SPOT, 2⟩
      ⟨"ETH", Side.SHORT_PERP_LONG_SPOT, 3⟩ (11/10) (1/1000)).2.2.2
      (by simp) (by norm_num)

/-- C5: the economic gate passes iff
`|fundingRate| * notional * horizon ≥ mult * notional * (fee_open + fee_close)`
(`main` feeds the gate `max 0 (fee_open + fee_close)`, which coincides with
`fee_open + fee_close` for non-negative total fees); at the spec's concrete
parameters, funding `0.00002` gives expected `0.48 < 1.35` (gate fails) and
funding `0.0005` gives expected `12.0 ≥ 1.35` (gate passes). -/
theorem c5_break_even_gate_spec (f N H fo fc m : ℚ) (hfees : 0 ≤ fo + fc) :
    (break_even_gate f N H (max 0 (fo + fc)) m = true ↔
      |f| * N * H ≥ m * (N * (fo + fc))) ∧
    (calc_expected_funding_and_fees 0.00002 1000 24 (0.00045 + 0.00045)).1 = 0.48 ∧
    (3/2 : ℚ) * (calc_expected_funding_and_fees 0.00002 1000 24 (0.00045 + 0.00045)).2 = 1.35 ∧
    break_even_gate 0.00002 1000 24 (0.00045 + 0.00045) (3/2) = false ∧
    (calc_expected_funding_and_fees 0.0005 1000 24 (0.00045 + 0.00045)).1 = 12 ∧
    break_even_gate 0.0005 1000 24 (0.00045 + 0.00045) (3/2) = true := by
  have habs1 : |(0.00002 : ℚ)| = 0.00002 := abs_of_nonneg (by norm_num)
  have habs2 : |(0.0005 : ℚ)| = 0.0005 := abs_of_nonneg (by norm_num)
  refine ⟨?_, ?_, ?_, ?_, ?_, ?_⟩
  · rw [max_eq_right hfees]
    simp only [break_even_gate, calc_expected_funding_and_fees, decide_eq_true_eq]
  · simp only [calc_expected_funding_and_fees]
    rw [habs1]
    norm_num
  · simp only [calc_expected_funding_and_fees]
    norm_num
  · simp only [break_even_gate, calc_expected_funding_and_fees, decide_eq_false_iff_not, ge_iff_le,
      not_le]
    rw [habs1]
    norm_num
  · simp only [calc_expected_funding_and_fees]
    rw [habs2]
    norm_num
  · simp only [break_even_gate, calc_expected_funding_and_fees, decide_eq_true_eq, ge_iff_le]
    rw [habs2]
    norm_num

/-- Witness for C5 at the spec's parameters. -/
theorem c5_break_even_gate_spec_witness :
    (break_even_gate 0.0005 1000 24 (max 0 (0.00045 + 0.00045)) (3/2) = true ↔
      |(0.0005 : ℚ)| * 1000 * 24 ≥ (3/2 : ℚ) * (1000 * (0.00045 + 0.00045))) ∧
    break_even_gate 0.00002 1000 24 (0.00045 + 0.00045) (3/2) = false ∧
    break_even_gate 0.0005 1000 24 (0.00045 + 0.00045) (3/2) = true := by
  have h := c5_break_even_gate_spec 0.0005 1000 24 0.00045 0.00045 (3/2) (by norm_num)
  exact ⟨h.1, h.2.2.2.1, h.2.2.2.2.2⟩

/-- C4 (the missing `src/strategy.py` modelled from the spec as
`decide_open_main`): every OPEN decision passes the direction precheck of
`src/main.py` — `side_expected_receive(decision.side, snapshot.fundingRate)`
is true, and the decision's side is the short-perp side exactly when the
funding rate is positive and the long-perp side exactly when it is
negative. -/
theorem c4_open_passes_direction_precheck (pe fe : ℚ) (s : Snapshot) (f : ℚ)
    (hf : s.fundingRate = some f)
    (hopen : (decide_open_main pe fe s).action = Action.OPEN) :
    side_expected_receive_opt (decide_open_main pe fe s).side f = true ∧
    ((decide_open_main pe fe s).side = some Side.SHORT_PERP ↔ 0 < f) ∧
    ((decide_open_main pe fe s).side = some Side.LONG_PERP ↔ f < 0) := by
  obtain ⟨c, fr, pr, t⟩ := s
  simp only [Snapshot.fundingRate] at hf
  subst hf
  cases pr with
  | none => simp [decide_open_main] at hopen
  | some prem =>
    by_cases h1 : prem > 0 ∧ f > 0
    · by_cases h2 : prem ≥ pe ∧ f ≥ fe
      · have hd : decide_open_main pe fe ⟨c, some f, some prem, t⟩ =
            ⟨Action.OPEN, some Side.SHORT_PERP, prem + f, "valid_short_carry_entry"⟩ := by
          simp [decide_open_main, h1, h2]
        rw [hd]
        refine ⟨?_, ?_, ?_⟩
        · simp [side_expected_receive_opt, side_expected_receive, h1.2]
        · simp [h1.2]
        · simp
          exact h1.2.le
      · simp [decide_open_main, h1, h2] at hopen
    · by_cases h3 : prem < 0 ∧ f < 0
      · by_cases h4 : -prem ≥ pe ∧ -f ≥ fe
        · have hd : decide_open_main pe fe ⟨c, some f, some prem, t⟩ =
              ⟨Action.OPEN, some Side.LONG_PERP, -prem + -f, "valid_long_carry_entry"⟩ := by
            simp [decide_open_main, h1, h3, h4]
          rw [hd]
          refine ⟨?_, ?_, ?_⟩
          · simp [side_expected_receive_opt, side_expected_receive, h3.2]
          · simp
            exact h3.2.le
          · simp [h3.2]
        · simp [decide_open_main, h1, h3, h4] at hopen
      · simp [decide_open_main, h1, h3] at hopen

/-- Witness for C4: a concrete OPEN decision passing the precheck. -/
theorem c4_open_passes_direction_precheck_witness :
    side_expected_receive_opt
      (decide_open_main 0.0003 0.000006 ⟨"BTC", some 0.001, some 0.002, 0⟩).side 0.001 = true ∧
    ((decide_open_main 0.0003 0.000006 ⟨"BTC", some 0.001, some 0.002, 0⟩).side =
      some Side.SHORT_PERP ↔ (0 : ℚ) < 0.001) := by
  have h := c4_open_passes_direction_precheck 0.0003 0.000006
    ⟨"BTC", some 0.001, some 0.002, 0⟩ 0.001 rfl (by norm_num [decide_open_main])
  exact ⟨h.1, h.2.1⟩

/-- C8: with live trading enabled and the exchange reporting zero open
positions, startup reconciliation forces the local position to null for any
restored persisted record, rewrites the persisted file to
`{"position": null}`, and `current_side()` is null afterwards. -/
theorem c8_reconcile_zero_positions (restored : Option PositionState) (now_ms : ℤ) :
    (reconcile_startup restored (some []) now_ms).1 = none ∧
    (reconcile_startup restored (some []) now_ms).2 = [{ position := none }] ∧
    current_side (reconcile_startup restored (some []) now_ms).1 = none := by
  exact ⟨rfl, rfl, rfl⟩

/-- Inversion of a successful `place_order` call: how the result and the
submitted order relate to the observed world. -/
theorem place_order_inv {w : PerpWorld} {c : String} {b ro : Bool} {n : ℚ}
    {res : OrderResult} {o : SentOrder}
    (h : place_order w c b n ro = some (res, o)) :
    res.ok = (w.resp_ok && res.verified) ∧
    res.verified = (verify_position_change b ro w.before_szi w.after_szi).1 ∧
    res.verify_reason = (verify_position_change b ro w.before_szi w.after_szi).2 ∧
    o.venue = "perp" ∧ o.coin = c ∧ o.is_buy = b ∧ o.notional_usd = n ∧ o.reduce_only = ro ∧
    o.use_available_base_size_for_sell = false ∧ o.sz = res.size ∧
    res.size = (if ro then floor_to_decimals w.sz_decimals |w.before_szi.getD 0|
                else floor_to_decimals w.sz_decimals (n / w.mid)) := by
  simp only [place_order] at h
  split_ifs at h with h1 h2 h3 h4 h5
  all_goals
    simp only [Option.some.injEq, Prod.mk.injEq] at h
  all_goals
    obtain ⟨hres, ho⟩ := h
  all_goals
    subst hres
  all_goals
    subst ho
  · simp [h5]
  · simp [h5]

/-- Inversion of a successful `place_spot_order` call. -/
theorem place_spot_order_inv {w : SpotWorld} {base : String} {b ua : Bool} {n : ℚ}
    {res : SpotOrderResult} {o : SentOrder}
    (h : place_spot_order w base b n ua = some (res, o)) :
    res.ok = (w.resp_ok && res.verified) ∧
    o.venue = "spot" ∧ o.coin = base ∧ o.is_buy = b ∧ o.notional_usd = n ∧
    o.reduce_only = false ∧ o.use_available_base_size_for_sell = ua ∧ o.sz = res.size ∧
    res.size =
      (if (!b && ua &&
            (match w.before_bal with
             | some bb => decide (bb > 0)
             | none => false) : Bool)
       then floor_to_decimals w.sz_decimals (w.before_bal.getD 0)
       else floor_to_decimals w.sz_decimals (n / w.mid)) := by
  simp only [place_spot_order] at h
  split_ifs at h with h1 h2 h3 h4 h5 h6
  all_goals
    simp only [Option.some.injEq, Prod.mk.injEq] at h
  all_goals
    obtain ⟨hres, ho⟩ := h
  all_goals
    subst hres
  all_goals
    subst ho
  all_goals try simp_all
  all_goals
    cases hb : w.before_bal with
    | none => simp_all
    | some bb =>
      by_cases hua : ua = true
      · simp_all
        rw [if_neg (not_lt.mpr h4)]
      · simp_all

/-- All orders an `execute` call submits are sized from the plan's notional. -/
theorem execute_orders_notional (ex : LiveExecutor) (w : ExecWorld) (plan : OrderPlan) :
    ∀ o ∈ (execute ex w plan).2, o.notional_usd = plan.notional_usd := by
  intro o ho
  by_cases hsafe : ex.safe_mode = true
  · simp [execute, hsafe] at ho
  · rw [Bool.not_eq_true] at hsafe
    by_cases hkind : plan.kind = "OPEN"
    · by_cases hside : plan.side = some Side.SHORT_PERP ∨ plan.side = some Side.SHORT_PERP_LONG_SPOT
      · cases h1 : place_spot_order w.spot1 plan.coin true plan.notional_usd false with
        | none => simp [execute, hsafe, hkind, hside, h1] at ho
        | some r1 =>
          obtain ⟨spot, o1⟩ := r1
          have e1 := (place_spot_order_inv h1).2.2.2.2.1
          by_cases hok : spot.ok = true
          · cases h2 : place_order w.perp plan.coin false plan.notional_usd false with
            | none =>
              simp [execute, hsafe, hkind, hside, h1, h2, hok] at ho
              exact ho ▸ e1
            | some r2 =>
              obtain ⟨perp, o2⟩ := r2
              have e2 := (place_order_inv h2).2.2.2.2.2.2.1
              by_cases hfail : ¬(perp.ok = true ∧ perp.verified = true)
              · cases h3 : place_spot_order w.spot2 plan.coin false plan.notional_usd true with
                | none =>
                  simp [execute, hsafe, hkind, hside, h1, h2, h3, hok, hfail] at ho
                  rcases ho with ho | ho
                  · exact ho ▸ e1
                  · exact ho ▸ e2
                | some r3 =>
                  obtain ⟨rb, o3⟩ := r3
                  have e3 := (place_spot_order_inv h3).2.2.2.2.1
                  simp [execute, hsafe, hkind, hside, h1, h2, h3, hok, hfail] at ho
                  rcases ho with ho | ho | ho
                  · exact ho ▸ e1
                  · exact ho ▸ e2
                  · exact ho ▸ e3
              · rw [not_not] at hfail
                simp [execute, hsafe, hkind, hside, h1, h2, hok, hfail.1, hfail.2] at ho
                rcases ho with ho | ho
                · exact ho ▸ e1
                · exact ho ▸ e2
          · simp [execute, hsafe, hkind, hside, h1, hok] at ho
            exact ho ▸ e1
      · simp [execute, hsafe, hkind, hside] at ho
    · by_cases hside : plan.side = some Side.SHORT_PERP ∨ plan.side = some Side.SHORT_PERP_LONG_SPOT
      · cases h1 : place_order w.perp plan.coin true plan.notional_usd true with
        | none => simp [execute, hsafe, hkind, hside, h1] at ho
        | some r1 =>
          obtain ⟨perp, o1⟩ := r1
          have e1 := (place_order_inv h1).2.2.2.2.2.2.1
          by_cases hfail : ¬(perp.ok = true ∧ perp.verified = true)
          · simp [execute, hsafe, hkind, hside, h1, hfail] at ho
            exact ho ▸ e1
          · rw [not_not] at hfail
            cases h2 : place_spot_order w.spot2 plan.coin false plan.notional_usd true with
            | none =>
              simp [execute, hsafe, hkind, hside, h1, h2, hfail.1, hfail.2] at ho
              exact ho ▸ e1
            | some r2 =>
              obtain ⟨spot, o2⟩ := r2
              have e2 := (place_spot_order_inv h2).2.2.2.2.1
              by_cases hsok : spot.ok = true
              · simp [execute, hsafe, hkind, hside, h1, h2, hfail.1, hfail.2, hsok] at ho
                rcases ho with ho | ho
                · exact ho ▸ e1
                · exact ho ▸ e2
              · simp [execute, hsafe, hkind, hside, h1, h2, hfail.1, hfail.2, hsok] at ho
                rcases ho with ho | ho
                · exact ho ▸ e1
                · exact ho ▸ e2
      · cases h1 : place_order w.perp plan.coin false plan.notional_usd true with
        | none => simp [execute, hsafe, hkind, hside, h1] at ho
        | some r1 =>
          obtain ⟨perp, o1⟩ := r1
          have e1 := (place_order_inv h1).2.2.2.2.2.2.1
          simp [execute, hsafe, hkind, hside, h1] at ho
          exact ho ▸ e1

/-- C6: constructing a `LiveExecutor` with `notional_usd > 100` fails the
`Real-money test cap exceeded` assertion; any successfully constructed
executor has `notional_usd ≤ 100`, and every intent, plan and submitted live
order it produces carries a notional of at most 100, whatever the configured
base notional was. -/
theorem c6_live_executor_cap (n : ℚ) (sm : Bool) (q : String) :
    (100 < n → mkLiveExecutor n sm q = none) ∧
    (∀ ex, mkLiveExecutor n sm q = some ex →
      ex.notional_usd ≤ 100 ∧
      ∀ snap kind side reason,
        (build_intent ex snap kind side reason).notional_usd ≤ 100 ∧
        (build_plan (build_intent ex snap kind side reason)).notional_usd ≤ 100 ∧
        ∀ w o, o ∈ (execute ex w (preview ex snap kind side reason)).2 →
          o.notional_usd ≤ 100) := by
  constructor
  · intro hn
    simp [mkLiveExecutor, not_le.mpr hn]
  · intro ex hex
    by_cases hn : n ≤ 100
    · simp only [mkLiveExecutor, if_pos hn, Option.some.injEq] at hex
      subst hex
      refine ⟨hn, fun snap kind side reason => ⟨hn, ?_, ?_⟩⟩
      · simp only [build_plan, build_intent]
        split_ifs <;> exact hn
      · intro w o ho
        have := execute_orders_notional _ w _ o ho
        rw [this]
        have hplan : (preview { notional_usd := n, safe_mode := sm, spot_quote := q }
            snap kind side reason).notional_usd = n := by
          simp only [preview, build_plan, build_intent]
          split_ifs <;> rfl
        rw [hplan]
        exact hn
    · simp [mkLiveExecutor, hn] at hex

/-- Witness for C6: the cap rejects 150 and a 50-notional executor's artifacts
stay under the cap. -/
theorem c6_live_executor_cap_witness :
    mkLiveExecutor 150 false "USDC" = none ∧
    ((50 : ℚ) ≤ 100 ∧
      ∀ snap kind side reason,
        (build_intent ⟨50, false, "USDC"⟩ snap kind side reason).notional_usd ≤ 100 ∧
        (build_plan (build_intent ⟨50, false, "USDC"⟩ snap kind side reason)).notional_usd ≤ 100 ∧
        ∀ w o, o ∈ (execute ⟨50, false, "USDC"⟩ w
            (preview ⟨50, false, "USDC"⟩ snap kind side reason)).2 →
          o.notional_usd ≤ 100) := by
  refine ⟨(c6_live_executor_cap 150 false "USDC").1 (by norm_num), ?_⟩
  exact (c6_live_executor_cap 50 false "USDC").2 ⟨50, false, "USDC"⟩
    (by norm_num [mkLiveExecutor])

/-- A failed non-reduce-only verification always reports
`position_not_changed`. -/
theorem verify_open_fail_reason (b : Bool) (before after : Option ℚ)
    (h : (verify_position_change b false before after).1 = false) :
    (verify_position_change b false before after).2 = "position_not_changed" := by
  simp only [verify_position_change] at h ⊢
  split_ifs at h ⊢ <;> simp_all

/-- A reduce-only verification succeeds exactly when the position existed and
strictly shrank in magnitude. -/
theorem verify_reduce_iff (b : Bool) (szi : ℚ) (after : Option ℚ) :
    (verify_position_change b true (some szi) after).1 = true ↔
      szi ≠ 0 ∧ |after.getD 0| < |szi| := by
  simp only [verify_position_change, Option.getD_some]
  split_ifs with h1 h2 <;> simp_all

/-- A returned perp order result can only be `ok` if it verified. -/
theorem place_order_ok_false {w : PerpWorld} {c : String} {b ro : Bool} {n : ℚ}
    {res : OrderResult} {o : SentOrder}
    (h : place_order w c b n ro = some (res, o))
    (hfail : ¬(res.ok = true ∧ res.verified = true)) : res.ok = false := by
  have hinv := (place_order_inv h).1
  cases hv : res.verified
  · rw [hinv, hv, Bool.and_false]
  · cases hok : res.ok
    · rfl
    · exact absurd ⟨hok, hv⟩ hfail

/-- C1: on the short-perp/long-spot OPEN path, once the spot leg has succeeded
and the perp leg returns failed or unverified, `execute` submits a spot
sell-back sized from the now-available base balance and returns the perp leg's
result with `ok = false` — whose `verify_reason` reports the perp-leg
verification failure (`position_not_changed` whenever the perp leg failed
verification), never a success and never a spot-leg reason. -/
theorem c1_open_rollback_on_perp_failure
    (ex : LiveExecutor) (w : ExecWorld) (plan : OrderPlan) (bal : ℚ)
    (spot : SpotOrderResult) (o1 : SentOrder) (perp : OrderResult) (o2 : SentOrder)
    (rb : SpotOrderResult) (o3 : SentOrder)
    (hsafe : ex.safe_mode = false)
    (hkind : plan.kind = "OPEN")
    (hside : plan.side = some Side.SHORT_PERP ∨ plan.side = some Side.SHORT_PERP_LONG_SPOT)
    (hspot : place_spot_order w.spot1 plan.coin true plan.notional_usd false = some (spot, o1))
    (hspot_ok : spot.ok = true)
    (hperp : place_order w.perp plan.coin false plan.notional_usd false = some (perp, o2))
    (hfail : ¬(perp.ok = true ∧ perp.verified = true))
    (hroll : place_spot_order w.spot2 plan.coin false plan.notional_usd true = some (rb, o3))
    (hbal : w.spot2.before_bal = some bal) (hbalpos : 0 < bal) :
    execute ex w plan = (some (some perp.toRes), [o1, o2, o3]) ∧
    perp.toRes.ok = false ∧
    (perp.verified = false → perp.toRes.verify_reason = "position_not_changed") ∧
    o3.venue = "spot" ∧ o3.is_buy = false ∧ o3.use_available_base_size_for_sell = true ∧
    o3.sz = floor_to_decimals w.spot2.sz_decimals bal := by
  have hinv := place_order_inv hperp
  have hrinv := place_spot_order_inv hroll
  have hok_false := place_order_ok_false hperp hfail
  refine ⟨?_, ?_, ?_, hrinv.2.1, hrinv.2.2.2.1, hrinv.2.2.2.2.2.2.1, ?_⟩
  · simp [execute, hsafe, hkind, hside, hspot, hspot_ok, hperp, hfail, hroll]
  · simp [OrderResult.toRes, hok_false]
  · intro hv
    have h2 := hinv.2.1
    have h3 := hinv.2.2.1
    simp only [OrderResult.toRes]
    rw [h3]
    exact verify_open_fail_reason false w.perp.before_szi w.perp.after_szi (h2 ▸ hv)
  · have hsz := hrinv.2.2.2.2.2.2.2.1
    have hsz2 := hrinv.2.2.2.2.2.2.2.2
    rw [hbal] at hsz2
    simp only [Bool.not_false, Bool.true_and, Option.getD_some, decide_eq_true_eq] at hsz2
    rw [if_pos hbalpos] at hsz2
    rw [hsz, hsz2]

/-- Witness for C1 at a fully concrete world: spot BUY fills, perp SELL does
not change the position, the rollback spot SELL is submitted sized from the
50-unit base balance, and the returned result is the failed perp result. -/
theorem c1_open_rollback_on_perp_failure_witness :
    execute ⟨50, false, "USDC"⟩
        ⟨⟨true, 1, 2, some 0, true, some 50⟩, ⟨1, 2, some 0, true, some 0⟩,
         ⟨true, 1, 2, some 50, true, some 0⟩⟩
        ⟨"OPEN", "BTC", some Side.SHORT_PERP, 50, false, false, 0, "open plan"⟩ =
      (some (some ⟨false, false, "position_not_changed"⟩),
       [⟨"spot", "BTC", true, 50, 50, false, false⟩,
        ⟨"perp", "BTC", false, 50, 50, false, false⟩,
        ⟨"spot", "BTC", false, 50, 50, false, true⟩]) ∧
    (⟨false, 1, 50, false, some 0, some 0, "position_not_changed"⟩ : OrderResult).toRes.ok
      = false ∧
    (⟨"spot", "BTC", false, 50, 50, false, true⟩ : SentOrder).sz = floor_to_decimals 2 50 := by
  have h := c1_open_rollback_on_perp_failure
    ⟨50, false, "USDC"⟩
    ⟨⟨true, 1, 2, some 0, true, some 50⟩, ⟨1, 2, some 0, true, some 0⟩,
     ⟨true, 1, 2, some 50, true, some 0⟩⟩
    ⟨"OPEN", "BTC", some Side.SHORT_PERP, 50, false, false, 0, "open plan"⟩ 50
    ⟨true, 1, 50, true, "base_balance_changed", some 0, some 50⟩
    ⟨"spot", "BTC", true, 50, 50, false, false⟩
    ⟨false, 1, 50, false, some 0, some 0, "position_not_changed"⟩
    ⟨"perp", "BTC", false, 50, 50, false, false⟩
    ⟨true, 1, 50, true, "base_balance_changed", some 50, some 0⟩
    ⟨"spot", "BTC", false, 50, 50, false, true⟩
    rfl rfl (Or.inl rfl)
    (by norm_num [place_spot_order, floor_to_decimals, show Int.toNat 2 = 2 from rfl])
    rfl
    (by norm_num [place_order, floor_to_decimals, verify_position_change,
      show Int.toNat 2 = 2 from rfl])
    (by decide)
    (by norm_num [place_spot_order, floor_to_decimals, show Int.toNat 2 = 2 from rfl])
    rfl (by norm_num)
  exact ⟨h.1, h.2.1, h.2.2.2.2.2.2⟩

/-- C3: on the short-perp hedge CLOSE path, the perp leg is a reduce-only BUY
sized to the full currently-held position `|szi|` floored to the market's size
decimals (not to the plan's notional, which does not enter the size), its
verification succeeds exactly when the position strictly shrank in magnitude,
the spot leg is only sent when the perp leg is ok and verified, and that spot
SELL is sized from the currently available base balance instead of the
original notional. -/
theorem c3_close_perp_first_sized_to_position
    (ex : LiveExecutor) (w : ExecWorld) (plan : OrderPlan) (szi bal : ℚ)
    (perp : OrderResult) (o1 : SentOrder) (spot : SpotOrderResult) (o2 : SentOrder)
    (hsafe : ex.safe_mode = false)
    (hkind : plan.kind = "CLOSE")
    (hside : plan.side = some Side.SHORT_PERP ∨ plan.side = some Side.SHORT_PERP_LONG_SPOT)
    (hszi : w.perp.before_szi = some szi)
    (hperp : place_order w.perp plan.coin true plan.notional_usd true = some (perp, o1))
    (hspot : place_spot_order w.spot2 plan.coin false plan.notional_usd true = some (spot, o2))
    (hbal : w.spot2.before_bal = some bal) (hbalpos : 0 < bal) :
    o1.reduce_only = true ∧ o1.is_buy = true ∧
    o1.sz = floor_to_decimals w.perp.sz_decimals |szi| ∧
    (perp.verified = true ↔ szi ≠ 0 ∧ |w.perp.after_szi.getD 0| < |szi|) ∧
    (¬(perp.ok = true ∧ perp.verified = true) →
      execute ex w plan = (some (some perp.toRes), [o1])) ∧
    (perp.ok = true ∧ perp.verified = true →
      (execute ex w plan).2 = [o1, o2] ∧
      o2.is_buy = false ∧ o2.use_available_base_size_for_sell = true ∧
      o2.sz = floor_to_decimals w.spot2.sz_decimals bal) := by
  have hko : ¬ plan.kind = "OPEN" := by rw [hkind]; decide
  have hinv := place_order_inv hperp
  have hsinv := place_spot_order_inv hspot
  refine ⟨hinv.2.2.2.2.2.2.2.1, hinv.2.2.2.2.2.1, ?_, ?_, ?_, ?_⟩
  · rw [hinv.2.2.2.2.2.2.2.2.2.1, hinv.2.2.2.2.2.2.2.2.2.2, if_pos rfl, hszi, Option.getD_some]
  · rw [hinv.2.1, hszi]
    exact verify_reduce_iff true szi w.perp.after_szi
  · intro hfail
    simp [execute, hsafe, hko, hside, hperp, hfail]
  · intro hok
    refine ⟨?_, hsinv.2.2.2.1, hsinv.2.2.2.2.2.2.1, ?_⟩
    · by_cases hsok : spot.ok = true
      · simp [execute, hsafe, hko, hside, hperp, hok.1, hok.2, hspot, hsok]
      · simp [execute, hsafe, hko, hside, hperp, hok.1, hok.2, hspot, hsok]
    · have hsz := hsinv.2.2.2.2.2.2.2.1
      have hsz2 := hsinv.2.2.2.2.2.2.2.2
      rw [hbal] at hsz2
      simp only [Bool.not_false, Bool.true_and, Option.getD_some, decide_eq_true_eq] at hsz2
      rw [if_pos hbalpos] at hsz2
      rw [hsz, hsz2]

/-- Witness for C3 at a fully concrete world: a short position of `szi = -50`
is closed reduce-only with size `50` (the plan's notional is 7, deliberately
different), verification holds since the position went to zero, and the spot
sell is sized from the 50-unit base balance. -/
theorem c3_close_perp_first_sized_to_position_witness :
    (⟨"perp", "BTC", true, 50, 7, true, false⟩ : SentOrder).reduce_only = true ∧
    (⟨"perp", "BTC", true, 50, 7, true, false⟩ : SentOrder).sz = floor_to_decimals 2 |(-50 : ℚ)| ∧
    ((⟨true, 1, 50, true, some (-50), some 0, "reduced_position"⟩ : OrderResult).verified = true ↔
      (-50 : ℚ) ≠ 0 ∧ |(some (0 : ℚ)).getD 0| < |(-50 : ℚ)|) ∧
    ((execute ⟨50, false, "USDC"⟩
        ⟨⟨true, 1, 2, some 0, true, some 50⟩, ⟨1, 2, some (-50), true, some 0⟩,
         ⟨true, 1, 2, some 50, true, some 0⟩⟩
        ⟨"CLOSE", "BTC", some Side.SHORT_PERP, 7, true, false, 0, "close plan"⟩).2 =
      [⟨"perp", "BTC", true, 50, 7, true, false⟩, ⟨"spot", "BTC", false, 50, 7, false, true⟩]) := by
  have h := c3_close_perp_first_sized_to_position
    ⟨50, false, "USDC"⟩
    ⟨⟨true, 1, 2, some 0, true, some 50⟩, ⟨1, 2, some (-50), true, some 0⟩,
     ⟨true, 1, 2, some 50, true, some 0⟩⟩
    ⟨"CLOSE", "BTC", some Side.SHORT_PERP, 7, true, false, 0, "close plan"⟩ (-50) 50
    ⟨true, 1, 50, true, some (-50), some 0, "reduced_position"⟩
    ⟨"perp", "BTC", true, 50, 7, true, false⟩
    ⟨true, 1, 50, true, "base_balance_changed", some 50, some 0⟩
    ⟨"spot", "BTC", false, 50, 7, false, true⟩
    rfl rfl (Or.inl rfl) rfl
    (by norm_num [place_order, floor_to_decimals, verify_position_change,
      show Int.toNat 2 = 2 from rfl])
    (by norm_num [place_spot_order, floor_to_decimals, show Int.toNat 2 = 2 from rfl])
    rfl (by norm_num)
  exact ⟨h.1, h.2.2.1, h.2.2.2.1, (h.2.2.2.2.2 ⟨rfl, rfl⟩).1⟩

/-- Committing an OPEN through the dry-run executor never touches
`live_enabled`. -/
theorem commit_open_live (cfg : BotConfig) (st : BotState) (snap : Snapshot)
    (d : StrategyDecision) : (commit_open cfg st snap d).live_enabled = st.live_enabled := by
  unfold commit_open
  dsimp only
  split <;> rfl

/-- Committing a CLOSE through the dry-run executor never touches
`live_enabled`. -/
theorem commit_close_live (st : BotState) (snap : Snapshot) (d : StrategyDecision) :
    (commit_close st snap d).live_enabled = st.live_enabled := by
  unfold commit_close
  dsimp only
  split <;> rfl

/-- The post-funding block never re-enables live trading, records calls only
while live trading is enabled, and any branch that records a call ends with
live trading disabled. -/
theorem post_funding_block_props (cfg : BotConfig) (live : LiveExecutor) (st : BotState)
    (inp : CycleInput) :
    ((post_funding_block cfg live st inp).1.live_enabled = true → st.live_enabled = true) ∧
    (st.live_enabled = false → (post_funding_block cfg live st inp).2 = []) ∧
    ((post_funding_block cfg live st inp).2 ≠ [] →
      (post_funding_block cfg live st inp).1.live_enabled = false) := by
  unfold post_funding_block
  cases h : lookupCoin st.pending_funding_validation inp.snap.coin with
  | none => exact ⟨fun x => x, fun _ => rfl, fun hne => absurd rfl hne⟩
  | some p =>
    dsimp only
    split_ifs with h1 h2 h3 h4
    · exact ⟨fun x => x, fun _ => rfl, fun hne => absurd rfl hne⟩
    · cases hcs : current_side st.position <;> dsimp only <;>
        refine ⟨fun hfin => absurd hfin (by simp), ?_, fun _ => rfl⟩ <;>
        first
          | exact fun _ => rfl
          | (intro hlive
             exact absurd (show st.live_enabled = true by assumption) (by simp [hlive]))
    · cases hcs : current_side st.position <;> dsimp only <;>
        refine ⟨fun hfin => absurd hfin (by simp), fun _ => rfl, fun _ => rfl⟩
    · exact ⟨fun x => x, fun _ => rfl, fun hne => absurd rfl hne⟩
    · exact ⟨fun x => x, fun _ => rfl, fun hne => absurd rfl hne⟩

/-- The test-force-entry transform never touches `live_enabled`. -/
theorem force_entry_transform_live (st : BotState) (d0 : StrategyDecision) :
    (force_entry_transform st d0).2.live_enabled = st.live_enabled := by
  unfold force_entry_transform
  split_ifs <;> rfl

/-- If the OPEN pipeline ends with live trading enabled, it was enabled on
entry and no recorded call failed. -/
theorem flat_open_path_true_inv (cfg : BotConfig) (live : LiveExecutor)
    (st : BotState) (inp : CycleInput) (d : StrategyDecision)
    (hfin : (flat_open_path cfg live st inp d).1.live_enabled = true) :
    st.live_enabled = true ∧
    ∀ c ∈ (flat_open_path cfg live st inp d).2, failing_result c.result = false := by
  revert hfin
  unfold flat_open_path
  dsimp only
  split_ifs <;> intro hfin <;>
    first
      | (refine ⟨hfin, ?_⟩
         intro c hc
         exact absurd hc (List.not_mem_nil c))
      | (rw [commit_open_live] at hfin
         refine ⟨hfin, ?_⟩
         intro c hc
         exact absurd hc (List.not_mem_nil c))
      | (rw [commit_open_live] at hfin
         refine ⟨hfin, ?_⟩
         intro c hc
         simp only [List.mem_singleton] at hc
         subst hc
         rw [← Bool.not_eq_true]
         assumption)
      | (refine ⟨hfin, ?_⟩
         intro c hc
         simp only [List.mem_singleton] at hc
         subst hc
         rw [← Bool.not_eq_true]
         assumption)
      | exact absurd hfin Bool.false_ne_true
      | exact hfin.elim

/-- With live trading disabled the OPEN pipeline records no calls and leaves
it disabled. -/
theorem flat_open_path_disabled (cfg : BotConfig) (live : LiveExecutor)
    (st : BotState) (inp : CycleInput) (d : StrategyDecision)
    (h : st.live_enabled = false) :
    (flat_open_path cfg live st inp d).2 = [] ∧
    (flat_open_path cfg live st inp d).1.live_enabled = false := by
  unfold flat_open_path
  dsimp only
  split_ifs <;>
    first
      | exact ⟨rfl, h⟩
      | (refine ⟨rfl, ?_⟩
         rw [commit_open_live]
         exact h)
      | (exfalso
         simp only [h] at *
         try exact Bool.false_ne_true (by assumption))

/-- If the FLAT branch ends with live trading enabled, it was enabled on entry
and no recorded call failed. -/
theorem flat_block_true_inv (cfg : BotConfig) (strat : StrategyFns) (live : LiveExecutor)
    (st : BotState) (inp : CycleInput)
    (hfin : (flat_block cfg strat live st inp).1.live_enabled = true) :
    st.live_enabled = true ∧
    ∀ c ∈ (flat_block cfg strat live st inp).2, failing_result c.result = false := by
  unfold flat_block at hfin ⊢
  dsimp only at hfin ⊢
  by_cases h : (force_entry_transform st (strat.decide_open inp.snap.toSnapshot)).1.action =
      Action.OPEN
  · rw [if_pos h] at hfin ⊢
    have h2 := flat_open_path_true_inv cfg live _ inp _ hfin
    rw [force_entry_transform_live] at h2
    exact h2
  · rw [if_neg h] at hfin ⊢
    rw [show ((force_entry_transform st (strat.decide_open inp.snap.toSnapshot)).2,
      ([] : List ExecCall)).1 = (force_entry_transform st (strat.decide_open inp.snap.toSnapshot)).2
      from rfl, force_entry_transform_live] at hfin
    exact ⟨hfin, by simp⟩

/-- With live trading disabled the FLAT branch records no calls and leaves it
disabled. -/
theorem flat_block_disabled (cfg : BotConfig) (strat : StrategyFns) (live : LiveExecutor)
    (st : BotState) (inp : CycleInput) (h : st.live_enabled = false) :
    (flat_block cfg strat live st inp).2 = [] ∧
    (flat_block cfg strat live st inp).1.live_enabled = false := by
  unfold flat_block
  dsimp only
  by_cases hb : (force_entry_transform st (strat.decide_open inp.snap.toSnapshot)).1.action =
      Action.OPEN
  · rw [if_pos hb]
    exact flat_open_path_disabled cfg live _ inp _
      ((force_entry_transform_live st _).trans h)
  · rw [if_neg hb]
    exact ⟨rfl, (force_entry_transform_live st _).trans h⟩

/-- If the IN-POSITION branch ends with live trading enabled, it was enabled
on entry and no recorded call failed. -/
theorem in_position_block_true_inv (cfg : BotConfig) (strat : StrategyFns)
    (live : LiveExecutor) (st : BotState) (inp : CycleInput) (cur : Side)
    (hfin : (in_position_block cfg strat live st inp cur).1.live_enabled = true) :
    st.live_enabled = true ∧
    ∀ c ∈ (in_position_block cfg strat live st inp cur).2, failing_result c.result = false := by
  revert hfin
  unfold in_position_block
  dsimp only
  split_ifs <;> intro hfin <;>
    first
      | (refine ⟨hfin, ?_⟩
         intro c hc
         exact absurd hc (List.not_mem_nil c))
      | (rw [commit_close_live] at hfin
         refine ⟨hfin, ?_⟩
         intro c hc
         exact absurd hc (List.not_mem_nil c))
      | (rw [commit_close_live] at hfin
         refine ⟨hfin, ?_⟩
         intro c hc
         simp only [List.mem_singleton] at hc
         subst hc
         rw [← Bool.not_eq_true]
         assumption)
      | (refine ⟨hfin, ?_⟩
         intro c hc
         simp only [List.mem_singleton] at hc
         subst hc
         rw [← Bool.not_eq_true]
         assumption)
      | exact absurd hfin Bool.false_ne_true
      | exact hfin.elim

/-- With live trading disabled the IN-POSITION branch records no calls and
leaves it disabled. -/
theorem in_position_block_disabled (cfg : BotConfig) (strat : StrategyFns)
    (live : LiveExecutor) (st : BotState) (inp : CycleInput) (cur : Side)
    (h : st.live_enabled = false) :
    (in_position_block cfg strat live st inp cur).2 = [] ∧
    (in_position_block cfg strat live st inp cur).1.live_enabled = false := by
  unfold in_position_block
  dsimp only
  split_ifs <;>
    first
      | exact ⟨rfl, h⟩
      | (refine ⟨rfl, ?_⟩
         rw [commit_close_live]
         exact h)
      | (exfalso
         simp only [h] at *
         try exact Bool.false_ne_true (by assumption))

/-- If a loop-body iteration ends with live trading enabled, it was enabled
on entry and none of the `live.execute` calls it recorded failed. -/
theorem processSnapshot_true_inv (cfg : BotConfig) (strat : StrategyFns) (live : LiveExecutor)
    (st : BotState) (inp : CycleInput)
    (hfin : (processSnapshot cfg strat live st inp).1.live_enabled = true) :
    st.live_enabled = true ∧
    ∀ c ∈ (processSnapshot cfg strat live st inp).2, failing_result c.result = false := by
  revert hfin
  unfold processSnapshot
  by_cases hseen : lookupCoin st.last_seen_time inp.snap.coin = some inp.snap.time
  · rw [if_pos hseen]
    intro hfin
    exact ⟨hfin, fun c hc => absurd hc (List.not_mem_nil c)⟩
  · rw [if_neg hseen]
    dsimp only
    set st1 : BotState :=
      { st with last_seen_time := setCoin st.last_seen_time inp.snap.coin inp.snap.time }
      with hst1
    have hlive1 : st1.live_enabled = st.live_enabled := by rw [hst1]
    have hpf := post_funding_block_props cfg live st1 inp
    cases hcs : current_side (post_funding_block cfg live st1 inp).1.position with
    | none =>
      dsimp only
      intro hfin
      have hfb := flat_block_true_inv cfg strat live (post_funding_block cfg live st1 inp).1 inp
        hfin
      have h1 : st.live_enabled = true := by rw [← hlive1]; exact hpf.1 hfb.1
      refine ⟨h1, ?_⟩
      intro c hc
      rw [List.mem_append] at hc
      rcases hc with hc | hc
      · exfalso
        have hne : (post_funding_block cfg live st1 inp).2 ≠ [] := by
          intro hnil
          rw [hnil] at hc
          exact absurd hc (List.not_mem_nil c)
        have := hpf.2.2 hne
        rw [this] at hfb
        exact Bool.false_ne_true hfb.1
      · exact hfb.2 c hc
    | some cur =>
      dsimp only
      intro hfin
      have hib := in_position_block_true_inv cfg strat live
        (post_funding_block cfg live st1 inp).1 inp cur hfin
      have h1 : st.live_enabled = true := by rw [← hlive1]; exact hpf.1 hib.1
      refine ⟨h1, ?_⟩
      intro c hc
      rw [List.mem_append] at hc
      rcases hc with hc | hc
      · exfalso
        have hne : (post_funding_block cfg live st1 inp).2 ≠ [] := by
          intro hnil
          rw [hnil] at hc
          exact absurd hc (List.not_mem_nil c)
        have := hpf.2.2 hne
        rw [this] at hib
        exact Bool.false_ne_true hib.1
      · exact hib.2 c hc

/-- With live trading disabled a loop-body iteration records no calls and
leaves it disabled. -/
theorem processSnapshot_disabled (cfg : BotConfig) (strat : StrategyFns) (live : LiveExecutor)
    (st : BotState) (inp : CycleInput) (h : st.live_enabled = false) :
    (processSnapshot cfg strat live st inp).2 = [] ∧
    (processSnapshot cfg strat live st inp).1.live_enabled = false := by
  unfold processSnapshot
  by_cases hseen : lookupCoin st.last_seen_time inp.snap.coin = some inp.snap.time
  · rw [if_pos hseen]
    exact ⟨rfl, h⟩
  · rw [if_neg hseen]
    dsimp only
    set st1 : BotState :=
      { st with last_seen_time := setCoin st.last_seen_time inp.snap.coin inp.snap.time }
      with hst1
    have hlive1 : st1.live_enabled = false := by rw [hst1]; exact h
    have hpf := post_funding_block_props cfg live st1 inp
    have hpf2 : (post_funding_block cfg live st1 inp).1.live_enabled = false := by
      cases hv : (post_funding_block cfg live st1 inp).1.live_enabled
      · rfl
      · rw [hpf.1 hv] at hlive1
        exact absurd hlive1 (by simp)
    have hpfnil := hpf.2.1 hlive1
    cases hcs : current_side (post_funding_block cfg live st1 inp).1.position with
    | none =>
      dsimp only
      have hfb := flat_block_disabled cfg strat live (post_funding_block cfg live st1 inp).1 inp
        hpf2
      rw [hpfnil, hfb.1]
      exact ⟨rfl, hfb.2⟩
    | some cur =>
      dsimp only
      have hib := in_position_block_disabled cfg strat live
        (post_funding_block cfg live st1 inp).1 inp cur hpf2
      rw [hpfnil, hib.1]
      exact ⟨rfl, hib.2⟩

/-- Once live trading is disabled, every further iteration records no calls
and it stays disabled. -/
theorem runBot_disabled (cfg : BotConfig) (strat : StrategyFns) (live : LiveExecutor)
    (l : List CycleInput) (st : BotState) (h : st.live_enabled = false) :
    (runBot cfg strat live st l).1.live_enabled = false ∧
    ∀ tr ∈ (runBot cfg strat live st l).2, tr = [] := by
  induction l generalizing st with
  | nil => exact ⟨h, fun tr htr => absurd htr (List.not_mem_nil tr)⟩
  | cons i rest ih =>
    have hp := processSnapshot_disabled cfg strat live st i h
    have hrest := ih (processSnapshot cfg strat live st i).1 hp.2
    refine ⟨hrest.1, ?_⟩
    intro tr htr
    simp only [runBot, List.mem_cons] at htr
    rcases htr with htr | htr
    · rw [htr]
      exact hp.1
    · exact hrest.2 tr htr

/-- C2: in the orchestrator loop, after any iteration whose recorded
`live.execute` call returned a missing, not-ok or not-verified result, live
order submission is disabled (`live_enabled = false`) and stays disabled for
the rest of the run: every later iteration records no `live.execute` call at
all, whatever snapshots arrive.  `pre` is any prefix of iterations already
processed, `inp` the failing iteration, `post` the rest of the run. -/
theorem c2_desync_abort_permanent (cfg : BotConfig) (strat : StrategyFns)
    (live : LiveExecutor) (st0 : BotState) (pre : List CycleInput) (inp : CycleInput)
    (post : List CycleInput)
    (hfail : ∃ c ∈ (processSnapshot cfg strat live (runBot cfg strat live st0 pre).1 inp).2,
      failing_result c.result = true) :
    (processSnapshot cfg strat live (runBot cfg strat live st0 pre).1 inp).1.live_enabled
      = false ∧
    (runBot cfg strat live
      (processSnapshot cfg strat live (runBot cfg strat live st0 pre).1 inp).1
      post).1.live_enabled = false ∧
    ∀ tr ∈ (runBot cfg strat live
        (processSnapshot cfg strat live (runBot cfg strat live st0 pre).1 inp).1 post).2,
      tr = [] := by
  obtain ⟨c, hc, hcf⟩ := hfail
  have h1 : (processSnapshot cfg strat live (runBot cfg strat live st0 pre).1 inp).1.live_enabled
      = false := by
    cases hv : (processSnapshot cfg strat live
        (runBot cfg strat live st0 pre).1 inp).1.live_enabled
    · rfl
    · have := (processSnapshot_true_inv cfg strat live _ inp hv).2 c hc
      rw [this] at hcf
      exact absurd hcf (by simp)
  have h2 := runBot_disabled cfg strat live post _ h1
  exact ⟨h1, h2.1, h2.2⟩

/-- Concrete configuration for exercising the loop. -/
def c2_cfg : BotConfig := ⟨120, 3600, 60, false, 24, 9/10000, 3/2, 50⟩

/-- Concrete strategy that always opens short. -/
def c2_strat : StrategyFns :=
  ⟨fun _ => ⟨Action.OPEN, some Side.SHORT_PERP, 1, "valid_short_carry_entry"⟩,
   fun _ cur => ⟨Action.HOLD, some cur, 0, "hold"⟩⟩

/-- Concrete live executor configuration. -/
def c2_live : LiveExecutor := ⟨50, false, "USDC"⟩

/-- Concrete initial loop state with live trading enabled. -/
def c2_st0 : BotState := ⟨true, none, [], [], [], false, false⟩

/-- Concrete cycle whose `live.execute` call returns `None` (a missing
result). -/
def c2_inp : CycleInput := ⟨⟨"BTC", 1, 1, 5⟩, none, none⟩

/-- A later cycle with a fresh snapshot. -/
def c2_inp2 : CycleInput := ⟨⟨"BTC", 1, 1, 6⟩, none, none⟩

/-- Witness for C2: the concrete failing OPEN submission disables live
trading, and the following cycle records no `live.execute` call. -/
theorem c2_desync_abort_permanent_witness :
    (processSnapshot c2_cfg c2_strat c2_live c2_st0 c2_inp).1.live_enabled = false ∧
    ∀ tr ∈ (runBot c2_cfg c2_strat c2_live
        (processSnapshot c2_cfg c2_strat c2_live c2_st0 c2_inp).1 [c2_inp2]).2, tr = [] := by
  have htrace : (processSnapshot c2_cfg c2_strat c2_live c2_st0 c2_inp).2 =
      [⟨⟨"OPEN", "BTC", some Side.SHORT_PERP, 50, false, false, 0, "PERP_ONLY OPEN"⟩, none⟩] := by
    norm_num [processSnapshot, post_funding_block, flat_block, force_entry_transform,
      flat_open_path, lookupCoin, setCoin, current_side, side_expected_receive_opt,
      side_expected_receive, failing_result, preview, build_plan, build_intent,
      FetchedSnap.toSnapshot, calc_expected_funding_and_fees, c2_cfg, c2_strat, c2_live,
      c2_st0, c2_inp]
    simp
  have h := c2_desync_abort_permanent c2_cfg c2_strat c2_live c2_st0 [] c2_inp [c2_inp2]
    (by
      rw [show (runBot c2_cfg c2_strat c2_live c2_st0 []).1 = c2_st0 from rfl, htrace]
      exact ⟨_, List.mem_singleton.mpr rfl, rfl⟩)
  exact ⟨h.1, h.2.2⟩

end Mvp